import Mathlib

set_option autoImplicit false

/-!
FISCO-BCOS: the transaction download queue and the RocksDB access wrapper.

A shallow embedding of

* `libstorage/BasicRocksDB.cpp` (`checkStatus`, `Open`, `Get`, `BatchPut`, `Write`), and
* `libsync/DownloadingTxsQueue.cpp` (`push`, `pop2TxPool`).

Collaborators whose code is not part of these files (RocksDB itself, the RLP
decoder, the transaction pool, the p2p service, the tree router, the statistics
handler) are function-valued fields or arguments.  Every call made to a
collaborator with an effect is recorded, in program order, in a list of `Event`s.
-/

namespace dev

/-! ## libstorage/BasicRocksDB.cpp -/

namespace storage

/-- The codes of `rocksdb::Status` (the RocksDB library type). -/
inductive Code where
  | kOk
  | kNotFound
  | kCorruption
  | kNotSupported
  | kInvalidArgument
  | kIOError
  | kMergeInProgress
  | kIncomplete
  | kShutdownInProgress
  | kTimedOut
  | kAborted
  | kBusy
  | kExpired
  | kTryAgain
  | kCompactionTooLarge
  | kColumnFamilyDropped
  deriving DecidableEq, Repr

/-- The sub-codes of `rocksdb::Status`. -/
inductive SubCode where
  | kNone
  | kMutexTimeout
  | kLockTimeout
  | kLockLimit
  | kNoSpace
  | kDeadlock
  | kStaleFile
  | kMemoryLimit
  | kSpaceLimit
  | kPathNotFound
  deriving DecidableEq, Repr

/-- A `rocksdb::Status`: code, sub-code and the text that `ToString()` renders. -/
structure Status where
  code : Code
  subcode : SubCode
  text : String
  deriving DecidableEq, Repr

namespace Status

def ok (s : Status) : Bool := s.code == Code.kOk

def IsNotFound (s : Status) : Bool := s.code == Code.kNotFound

def IsIOError (s : Status) : Bool := s.code == Code.kIOError

def IsCorruption (s : Status) : Bool := s.code == Code.kCorruption

/-- In RocksDB `IsNoSpace` is an `IOError` whose sub-code is `kNoSpace`. -/
def IsNoSpace (s : Status) : Bool := s.code == Code.kIOError && s.subcode == SubCode.kNoSpace

def IsNotSupported (s : Status) : Bool := s.code == Code.kNotSupported

def IsShutdownInProgress (s : Status) : Bool := s.code == Code.kShutdownInProgress

def ToString (s : Status) : String := s.text

end Status

/-- The exceptions of `libdevcore/Exceptions.h` that matter here, each carrying its
`errinfo_comment`; `filesystem_error` is what `boost::filesystem::create_directories`
throws, `NullHandle` stands for a call through an empty `m_db`. -/
inductive Exception where
  | DatabaseError (comment : String)
  | DatabaseNeedRetry (comment : String)
  | OpenDBFailed (comment : String)
  | filesystem_error (comment : String)
  | NullHandle
  deriving DecidableEq, Repr

/-- The condition of the "fatal exception" branch of `checkStatus`. -/
def isFatal (status : Status) : Bool :=
  status.IsIOError || status.IsCorruption || status.IsNoSpace ||
    status.IsNotSupported || status.IsShutdownInProgress

/-- The function `BasicRocksDB::checkStatus`: returns, or throws one of two exceptions.
`Get`, `BatchPut` and `Write` call it with the status alone; their `path` is the default
argument of the declaration, the empty string. -/
def checkStatus (status : Status) (path : String) : Except Exception Unit :=
  if status.ok || status.IsNotFound then
    Except.ok ()
  else
    let errorInfo := "access rocksDB failed, status: " ++ status.ToString
    let errorInfo := if path ≠ "" then errorInfo ++ ", path:" ++ path else errorInfo
    if isFatal status then
      Except.error (Exception.DatabaseError errorInfo)
    else
      let errorInfo := errorInfo ++ ", please try again!"
      Except.error (Exception.DatabaseNeedRetry errorInfo)

/-- A `rocksdb::WriteBatch`, as the list of the pairs put so far. -/
structure WriteBatch where
  rep : List (String × String)
  deriving DecidableEq, Repr

/-- An open `rocksdb::DB`: an identity and the outcome of its `Get` and `Write`. -/
structure DB where
  id : Nat
  Get : String → Status × String
  Write : WriteBatch → Status

/-- The members of `BasicRocksDB` used below. -/
structure BasicRocksDB where
  m_db : Option DB
  m_decryptHandler : Option (String → String)

/-- The function `BasicRocksDB::Open`.  `createDirectories` is the outcome of
`boost::filesystem::create_directories(dbname)` and `dbOpen` that of `DB::Open`:
its status and the pointer it stored (null when it stored none). -/
def BasicRocksDB.Open (self : BasicRocksDB) (createDirectories : Except String Unit)
    (dbOpen : String → Status × Option DB) (dbname : String) :
    Except Exception (Option DB × BasicRocksDB) :=
  match createDirectories with
  | Except.error e => Except.error (Exception.filesystem_error e)
  | Except.ok () =>
    let r := dbOpen dbname
    match checkStatus r.1 dbname with
    | Except.error e => Except.error e
    | Except.ok () =>
      let self1 : BasicRocksDB := { self with m_db := r.2 }
      Except.ok (self1.m_db, self1)

/-- The function `BasicRocksDB::Get`: the status and the (decrypted) value. -/
def BasicRocksDB.Get (self : BasicRocksDB) (key : String) : Except Exception (Status × String) :=
  match self.m_db with
  | none => Except.error Exception.NullHandle
  | some db =>
    let r := db.Get key
    match checkStatus r.1 "" with
    | Except.error e => Except.error e
    | Except.ok () =>
      match self.m_decryptHandler with
      | some decrypt => if r.2 ≠ "" then Except.ok (r.1, decrypt r.2) else Except.ok (r.1, r.2)
      | none => Except.ok (r.1, r.2)

/-- The function `BasicRocksDB::BatchPut`; `put` is `WriteBatch::Put`. -/
def BasicRocksDB.BatchPut (put : WriteBatch → String → String → Status × WriteBatch)
    (batch : WriteBatch) (key value : String) : Except Exception (Status × WriteBatch) :=
  let r := put batch key value
  match checkStatus r.1 "" with
  | Except.error e => Except.error e
  | Except.ok () => Except.ok (r.1, r.2)

/-- The function `BasicRocksDB::Write`. -/
def BasicRocksDB.Write (self : BasicRocksDB) (batch : WriteBatch) : Except Exception Status :=
  match self.m_db with
  | none => Except.error Exception.NullHandle
  | some db =>
    let status := db.Write batch
    match checkStatus status "" with
    | Except.error e => Except.error e
    | Except.ok () => Except.ok status

/-- The message that the specification gives for a failed access. -/
def accessFailedMessage (status : Status) (path : String) (retry : Bool) : String :=
  "access rocksDB failed, status: " ++ status.ToString ++
    ((if path = "" then "" else ", path:" ++ path) ++
      (if retry then ", please try again!" else ""))

/-- A status with the code `kIOError`, as `DB::Open` gives when the lock file is held. -/
def lockHeldStatus : Status :=
  { code := Code.kIOError, subcode := SubCode.kNone, text := "IO error: lock hold by current process" }

/-- A `DB::Open` that fails with `lockHeldStatus` and stores no handle. -/
def failingDbOpen : String → Status × Option DB := fun _ => (lockHeldStatus, none)

/-- A `BasicRocksDB` that has not been opened. -/
def closedRocksDB : BasicRocksDB := { m_db := none, m_decryptHandler := none }

end storage

end dev

/-! ## libsync/DownloadingTxsQueue.cpp -/

namespace dev.sync

abbrev NodeID := Nat

abbrev h256 := Nat

abbrev bytes := List Nat

/-- A decoded `dev::eth::Transaction`: its hash `sha3()`, its encoding `rlp()`, and the
outcome of `sender()`, which recovers the sender from the signature: `senderThrows` is
the exception it throws when the signature does not recover, `none` when it returns. -/
structure Transaction where
  sha3 : h256
  rlp : bytes
  senderThrows : Option String
  deriving DecidableEq, Repr

/-- The enumeration `dev::eth::ImportResult`: the two values the code names, and the rest. -/
inductive ImportResult where
  | Success
  | AlreadyKnown
  | Other (reason : Nat)
  deriving DecidableEq, Repr

/-- The enumeration `dev::eth::CheckTransaction`. -/
inductive CheckTransaction where
  | None
  | Cheap
  | Everything
  deriving DecidableEq, Repr

/-- What `push` reads of a `P2PMessage`: `packetType()` and `length()`. -/
structure P2PMessage where
  packetType : Int
  length : Nat
  deriving DecidableEq, Repr

/-- What `push` reads of a `SyncMsgPacket`: `rlp().data()` and the outcome of
`rlp()[1].toPositiveInt64()`, which throws when the item is not a positive integer. -/
structure SyncMsgPacket where
  rlpData : bytes
  consIndex : Except String Int

/-- The record `DownloadTxsShard`. -/
structure DownloadTxsShard where
  txsBytes : bytes
  fromPeer : NodeID
  forwardNodes : List NodeID
  deriving DecidableEq, Repr

def DownloadTxsShard.appendForwardNodes (shard : DownloadTxsShard) (node : NodeID) :
    DownloadTxsShard :=
  { shard with forwardNodes := shard.forwardNodes ++ [node] }

/-- The calls made to the collaborators, in program order. -/
inductive Event where
  | asyncSendMessageByNodeID (node : NodeID) (msg : P2PMessage)
  | updateSendedTxsInfo (len : Nat)
  | updateDownloadedTxsBytes (len : Nat)
  | txExists (hash : h256)
  | sender (j : Nat) (tx : Transaction)
  | txPoolImport (tx : Transaction)
  | logInvalidTransaction (reason : String) (rlp : bytes)
  | setTransactionsAreKnownBy (hashes : List h256) (peer : NodeID)
  | updateDownloadedTxsCount (count : Nat)
  deriving DecidableEq, Repr

/-- The members of `DownloadingTxsQueue`: the buffer, the tree router (its `selectNodes`,
when one is configured) and whether a statistics handler is set. -/
structure DownloadingTxsQueue where
  m_buffer : List DownloadTxsShard
  m_treeRouter : Option (List NodeID → Int → List NodeID)
  m_statisticHandler : Bool

/-- A queue as constructed: an empty buffer. -/
def DownloadingTxsQueue.new (treeRouter : Option (List NodeID → Int → List NodeID))
    (statisticHandler : Bool) : DownloadingTxsQueue :=
  { m_buffer := [], m_treeRouter := treeRouter, m_statisticHandler := statisticHandler }

/-- The body of the loop `for (auto const& selectedNode : *selectedNodeList)` of `push`. -/
def forwardStep (statisticHandler : Bool) (msg : P2PMessage) (fromPeer : NodeID)
    (acc : DownloadTxsShard × List Event) (selectedNode : NodeID) :
    DownloadTxsShard × List Event :=
  if selectedNode = fromPeer then
    acc
  else
    let trace := acc.2 ++ [Event.asyncSendMessageByNodeID selectedNode msg]
    let trace := if statisticHandler then trace ++ [Event.updateSendedTxsInfo msg.length] else trace
    (acc.1.appendForwardNodes selectedNode, trace)

/-- The result of `push`: the queue, the calls made, and the exception that left it. -/
structure PushResult where
  queue : DownloadingTxsQueue
  trace : List Event
  thrown : Option String

/-- The last three statements of `push`: append the shard under the write lock and
update the statistics. -/
def pushBack (self : DownloadingTxsQueue) (msg : P2PMessage)
    (acc : DownloadTxsShard × List Event) : PushResult :=
  { queue := { self with m_buffer := self.m_buffer ++ [acc.1] }
    trace := if self.m_statisticHandler then acc.2 ++ [Event.updateDownloadedTxsBytes msg.length]
      else acc.2
    thrown := none }

/-- The function `DownloadingTxsQueue::push`; `peersSet` is `m_syncStatus->peersSet()`. -/
def DownloadingTxsQueue.push (self : DownloadingTxsQueue) (packet : SyncMsgPacket)
    (msg : P2PMessage) (fromPeer : NodeID) (peersSet : List NodeID) : PushResult :=
  let txsShard : DownloadTxsShard :=
    { txsBytes := packet.rlpData, fromPeer := fromPeer, forwardNodes := [] }
  let RPCPacketType : Int := 1
  match (if msg.packetType = RPCPacketType then self.m_treeRouter else none) with
  | some selectNodes =>
    match packet.consIndex with
    | Except.error e => { queue := self, trace := [], thrown := some e }
    | Except.ok consIndex =>
      let selectedNodeList := selectNodes peersSet consIndex
      pushBack self msg
        (selectedNodeList.foldl (forwardStep self.m_statisticHandler msg fromPeer) (txsShard, []))
  | none => pushBack self msg (txsShard, [])

/-- The decoding collaborators of `pop2TxPool`: whether `g_BCOSConfig.version() >= RC2_VERSION`;
`parserDecode` is `RLP(ref(txsBytes))[0]` handed to `TxsParallelParser::decode`; `rlpItems`
gives the items `txsBytesRLP[0] .. txsBytesRLP[itemCount() - 1]`; `txDecode` is
`Transaction::decode` on one item.  The decoders throw on a malformed encoding. -/
structure Decoder where
  rc2 : Bool
  parserDecode : bytes → CheckTransaction → Except String (List Transaction)
  rlpItems : bytes → List bytes
  txDecode : bytes → Except String Transaction

/-- The loop `for (unsigned j = 0; j < txNum; j++) (*txs)[j]->decode(txsBytesRLP[j])`:
the first item whose decoding throws ends the loop with that exception. -/
def decodeItems (txDecode : bytes → Except String Transaction) :
    List bytes → Except String (List Transaction)
  | [] => Except.ok []
  | item :: rest =>
    match txDecode item with
    | Except.error e => Except.error e
    | Except.ok tx =>
      match decodeItems txDecode rest with
      | Except.error e => Except.error e
      | Except.ok txs => Except.ok (tx :: txs)

/-- The decode phase of `pop2TxPool` for one shard. -/
def decodeShard (decoder : Decoder) (checkSig : CheckTransaction) (txsShard : DownloadTxsShard) :
    Except String (List Transaction) :=
  if decoder.rc2 then
    decoder.parserDecode txsShard.txsBytes checkSig
  else
    decodeItems decoder.txDecode (decoder.rlpItems txsShard.txsBytes)

/-- The interface `TxPoolInterface` over a pool state `σ`; `importTx` returns or throws,
and gives the next pool state. -/
structure TxPoolInterface (σ : Type) where
  txExists : σ → h256 → Bool
  importTx : σ → Transaction → Except String ImportResult × σ
  setTransactionsAreKnownBy : σ → List h256 → NodeID → σ

/-- Runs the steps of a list in order until one throws: the calls made, and the
exception that ended the run (`none` when every step returned). -/
def runUntilThrow {α : Type} (step : α → List Event × Option String) :
    List α → List Event × Option String
  | [] => ([], none)
  | a :: rest =>
    match (step a).2 with
    | some e => ((step a).1, some e)
    | none => ((step a).1 ++ (runUntilThrow step rest).1, (runUntilThrow step rest).2)

/-- The body of the `tbb::parallel_for` lambda at index `j`: `txExists` on the hash and,
when the pool does not hold it, `sender()`, whose exception nothing catches. -/
def verifyAt {σ : Type} (txPool : TxPoolInterface σ) (pool : σ) (txs : List Transaction)
    (j : Nat) : List Event × Option String :=
  match txs.get? j with
  | none => ([], none)
  | some tx =>
    if !txPool.txExists pool tx.sha3 then
      ([Event.txExists tx.sha3, Event.sender j tx], tx.senderThrows)
    else ([Event.txExists tx.sha3], none)

/-- The lambda of `tbb::parallel_for` on one `blocked_range` `[r.1, r.2)`:
`for (size_t j = _r.begin(); j != _r.end(); ++j)`; an exception ends the block. -/
def verifyBlock {σ : Type} (txPool : TxPoolInterface σ) (pool : σ) (txs : List Transaction)
    (r : Nat × Nat) : List Event × Option String :=
  runUntilThrow (verifyAt txPool pool txs) (List.range' r.1 (r.2 - r.1))

/-- The verification phase: the blocks into which `tbb` split `[0, txs.size())`, run in
the order of the list; the exception of a block ends `parallel_for`, which rethrows it. -/
def verify {σ : Type} (txPool : TxPoolInterface σ) (pool : σ) (txs : List Transaction)
    (blocks : List (Nat × Nat)) : List Event × Option String :=
  runUntilThrow (verifyBlock txPool pool txs) blocks

/-- The variables of the import loop. -/
structure ImportState (σ : Type) where
  pool : σ
  knownTxHash : List h256
  successCnt : Nat
  trace : List Event

/-- The body of the loop `for (auto tx : *txs)`: the `try` block and its `catch`. -/
def importStep {σ : Type} (txPool : TxPoolInterface σ) (st : ImportState σ) (tx : Transaction) :
    ImportState σ :=
  let r := txPool.importTx st.pool tx
  match r.1 with
  | Except.ok importResult =>
    let successCnt :=
      match importResult with
      | ImportResult.Success => st.successCnt + 1
      | ImportResult.AlreadyKnown => st.successCnt
      | ImportResult.Other _ => st.successCnt
    { pool := r.2
      knownTxHash := st.knownTxHash ++ [tx.sha3]
      successCnt := successCnt
      trace := st.trace ++ [Event.txPoolImport tx] }
  | Except.error e =>
    { st with
      pool := r.2
      trace := st.trace ++ [Event.txPoolImport tx, Event.logInvalidTransaction e tx.rlp] }

/-- The import loop of one shard, from an empty `knownTxHash`. -/
def importLoop {σ : Type} (txPool : TxPoolInterface σ) (pool : σ) (successCnt : Nat)
    (txs : List Transaction) : ImportState σ :=
  txs.foldl (importStep txPool)
    { pool := pool, knownTxHash := [], successCnt := successCnt, trace := [] }

/-- The statements after the import loop: `setTransactionsAreKnownBy` for the origin
peer when `knownTxHash.size() > 0`, then for every forwarded node. -/
def markKnown {σ : Type} (txPool : TxPoolInterface σ) (pool : σ) (knownTxHash : List h256)
    (fromPeer : NodeID) (forwardNodes : List NodeID) : σ × List Event :=
  let start : σ × List Event :=
    if knownTxHash.length > 0 then
      (txPool.setTransactionsAreKnownBy pool knownTxHash fromPeer,
        [Event.setTransactionsAreKnownBy knownTxHash fromPeer])
    else (pool, [])
  forwardNodes.foldl
    (fun acc forwardedNode =>
      (txPool.setTransactionsAreKnownBy acc.1 knownTxHash forwardedNode,
        acc.2 ++ [Event.setTransactionsAreKnownBy knownTxHash forwardedNode]))
    start

/-- The variables that live across the iterations of the loop over `localBuffer`. -/
structure DrainState (σ : Type) where
  pool : σ
  successCnt : Nat
  trace : List Event
  thrown : Option String

/-- One iteration of `for (size_t i = 0; i < localBuffer->size(); ++i)`, given the
transactions decoded from the shard: the verification phase, whose exception leaves the
function, then the import loop, the known-by marks and the statistics update. -/
def processDecoded {σ : Type} (txPool : TxPoolInterface σ) (statisticHandler : Bool)
    (scheduler : Nat → List (Nat × Nat)) (st : DrainState σ) (txsShard : DownloadTxsShard)
    (txs : List Transaction) : DrainState σ :=
  let verified := verify txPool st.pool txs (scheduler txs.length)
  match verified.2 with
  | some e => { st with trace := st.trace ++ verified.1, thrown := some e }
  | none =>
    let fromPeer := txsShard.fromPeer
    let imported := importLoop txPool st.pool st.successCnt txs
    let marked :=
      markKnown txPool imported.pool imported.knownTxHash fromPeer txsShard.forwardNodes
    let statTrace := if statisticHandler then [Event.updateDownloadedTxsCount txs.length] else []
    { pool := marked.1
      successCnt := imported.successCnt
      trace := st.trace ++ verified.1 ++ imported.trace ++ marked.2 ++ statTrace
      thrown := none }

/-- The loop over `localBuffer`; an exception of the decode phase or of the verification
phase leaves the function. -/
def processBuffer {σ : Type} (txPool : TxPoolInterface σ) (decoder : Decoder)
    (statisticHandler : Bool) (scheduler : Nat → List (Nat × Nat)) (checkSig : CheckTransaction) :
    List DownloadTxsShard → DrainState σ → DrainState σ
  | [], st => st
  | txsShard :: rest, st =>
    match decodeShard decoder checkSig txsShard with
    | Except.error e => { st with thrown := some e }
    | Except.ok txs =>
      match (processDecoded txPool statisticHandler scheduler st txsShard txs).thrown with
      | some _ => processDecoded txPool statisticHandler scheduler st txsShard txs
      | none =>
        processBuffer txPool decoder statisticHandler scheduler checkSig rest
          (processDecoded txPool statisticHandler scheduler st txsShard txs)

/-- The result of `pop2TxPool`: the queue and pool afterwards, the calls made, the
`localBuffer` it captured, the count it logs, and the exception that left it. -/
structure PopResult (σ : Type) where
  queue : DownloadingTxsQueue
  pool : σ
  trace : List Event
  localBuffer : List DownloadTxsShard
  successCnt : Nat
  thrown : Option String

/-- The function `DownloadingTxsQueue::pop2TxPool`; `scheduler n` is the list of blocks
into which `tbb::parallel_for` splits `[0, n)`. -/
def DownloadingTxsQueue.pop2TxPool {σ : Type} (self : DownloadingTxsQueue)
    (txPool : TxPoolInterface σ) (decoder : Decoder) (scheduler : Nat → List (Nat × Nat))
    (pool : σ) (checkSig : CheckTransaction) : PopResult σ :=
  if self.m_buffer.length = 0 then
    { queue := self, pool := pool, trace := [], localBuffer := [], successCnt := 0,
      thrown := none }
  else
    let localBuffer := self.m_buffer
    let self1 : DownloadingTxsQueue := { self with m_buffer := [] }
    let st := processBuffer txPool decoder self.m_statisticHandler scheduler checkSig localBuffer
      { pool := pool, successCnt := 0, trace := [], thrown := none }
    { queue := self1, pool := st.pool, trace := st.trace, localBuffer := localBuffer,
      successCnt := st.successCnt, thrown := st.thrown }

/-! ### Reading a trace -/

/-- The targets of the `asyncSendMessageByNodeID` calls. -/
def sendTargets (trace : List Event) : List NodeID :=
  trace.filterMap fun e =>
    match e with
    | Event.asyncSendMessageByNodeID node _ => some node
    | _ => none

/-- The transactions handed to `_txPool->import`. -/
def importCalls (trace : List Event) : List Transaction :=
  trace.filterMap fun e =>
    match e with
    | Event.txPoolImport tx => some tx
    | _ => none

/-- The arguments of the `setTransactionsAreKnownBy` calls. -/
def knownByCalls (trace : List Event) : List (List h256 × NodeID) :=
  trace.filterMap fun e =>
    match e with
    | Event.setTransactionsAreKnownBy hashes peer => some (hashes, peer)
    | _ => none

/-! ### Sequences of operations -/

/-- One call on the queue. -/
inductive Op where
  | push (packet : SyncMsgPacket) (msg : P2PMessage) (fromPeer : NodeID) (peersSet : List NodeID)
  | pop2TxPool (checkSig : CheckTransaction)

/-- The state of a sequential run: queue, pool, what each `pop2TxPool` captured. -/
structure RunState (σ : Type) where
  queue : DownloadingTxsQueue
  pool : σ
  drains : List (List DownloadTxsShard)
  trace : List Event

def runOp {σ : Type} (txPool : TxPoolInterface σ) (decoder : Decoder)
    (scheduler : Nat → List (Nat × Nat)) (st : RunState σ) : Op → RunState σ
  | Op.push packet msg fromPeer peersSet =>
    let r := st.queue.push packet msg fromPeer peersSet
    { st with queue := r.queue, trace := st.trace ++ r.trace }
  | Op.pop2TxPool checkSig =>
    let r := st.queue.pop2TxPool txPool decoder scheduler st.pool checkSig
    { queue := r.queue, pool := r.pool, drains := st.drains ++ [r.localBuffer],
      trace := st.trace ++ r.trace }

def runOps {σ : Type} (txPool : TxPoolInterface σ) (decoder : Decoder)
    (scheduler : Nat → List (Nat × Nat)) (st : RunState σ) (ops : List Op) : RunState σ :=
  ops.foldl (runOp txPool decoder scheduler) st

/-- The shard that a call of `push` hands over, as the specification describes it: the
received bytes, the origin peer, and the selected nodes without the origin peer when
the message is tree-routed; a call that fails to read the consensus index hands over none. -/
def pushedShard (treeRouter : Option (List NodeID → Int → List NodeID)) : Op → Option DownloadTxsShard
  | Op.push packet msg fromPeer peersSet =>
    match treeRouter with
    | none => some { txsBytes := packet.rlpData, fromPeer := fromPeer, forwardNodes := [] }
    | some selectNodes =>
      if msg.packetType = 1 then
        match packet.consIndex with
        | Except.error _ => none
        | Except.ok consIndex =>
          some { txsBytes := packet.rlpData, fromPeer := fromPeer,
                 forwardNodes := (selectNodes peersSet consIndex).filter fun n => n ≠ fromPeer }
      else some { txsBytes := packet.rlpData, fromPeer := fromPeer, forwardNodes := [] }
  | Op.pop2TxPool _ => none

/-- The hashes that the specification puts in the known-hash list: those of the
transactions whose import returned `Success` or `AlreadyKnown`, in batch order. -/
def successOrKnownHashes {σ : Type} (txPool : TxPoolInterface σ) :
    σ → List Transaction → List h256
  | _, [] => []
  | pool, tx :: rest =>
    let r := txPool.importTx pool tx
    match r.1 with
    | Except.ok ImportResult.Success => tx.sha3 :: successOrKnownHashes txPool r.2 rest
    | Except.ok ImportResult.AlreadyKnown => tx.sha3 :: successOrKnownHashes txPool r.2 rest
    | _ => successOrKnownHashes txPool r.2 rest

/-- The hashes of the transactions whose import returned a result, whichever it was,
in batch order. -/
def returnedHashes {σ : Type} (txPool : TxPoolInterface σ) :
    σ → List Transaction → List h256
  | _, [] => []
  | pool, tx :: rest =>
    let r := txPool.importTx pool tx
    match r.1 with
    | Except.ok _ => tx.sha3 :: returnedHashes txPool r.2 rest
    | Except.error _ => returnedHashes txPool r.2 rest

/-! ### Concrete collaborators for the examples -/

/-- A small pool: the hashes it holds and the known-by marks it received. -/
structure SimplePoolState where
  txs : List h256
  knownBy : List (NodeID × List h256)
  deriving DecidableEq, Repr

/-- A pool of capacity `cap`: importing throws on an empty encoding, answers
`AlreadyKnown` for a hash it holds, rejects when full, and otherwise stores the hash. -/
def simplePool (cap : Nat) : TxPoolInterface SimplePoolState where
  txExists s h := s.txs.contains h
  importTx s tx :=
    if tx.rlp = [] then (Except.error "empty rlp", s)
    else if tx.sha3 ∈ s.txs then (Except.ok ImportResult.AlreadyKnown, s)
    else if cap ≤ s.txs.length then (Except.ok (ImportResult.Other 9), s)
    else (Except.ok ImportResult.Success, { s with txs := s.txs ++ [tx.sha3] })
  setTransactionsAreKnownBy s hashes peer := { s with knownBy := s.knownBy ++ [(peer, hashes)] }

def emptyPool : SimplePoolState := { txs := [], knownBy := [] }

/-- A legacy (pre-RC2) decoder over one-byte items: the item `[0]` is malformed, any
other item `[b]` is the transaction of hash `b`; the signature of the transaction 99
does not recover. -/
def legacyDecoder : Decoder where
  rc2 := false
  parserDecode := fun _ _ => Except.ok []
  rlpItems := fun bs => bs.map fun b => [b]
  txDecode := fun item =>
    match item with
    | [b] =>
      if b = 0 then Except.error "bad rlp"
      else Except.ok
        { sha3 := b, rlp := [b],
          senderThrows := if b = 99 then some "invalid signature" else none }
    | _ => Except.error "bad rlp"

/-- A scheduler that runs `[0, n)` as one block. -/
def oneBlock (n : Nat) : List (Nat × Nat) := [(0, n)]

/-- A router that selects every peer of the set. -/
def allPeers : List NodeID → Int → List NodeID := fun peers _ => peers

def tx1 : Transaction := { sha3 := 11, rlp := [11], senderThrows := none }

def tx2 : Transaction := { sha3 := 12, rlp := [12], senderThrows := none }

def tx3 : Transaction := { sha3 := 13, rlp := [13], senderThrows := none }

/-- The packet of shard A: the transactions 11 and 12. -/
def packetA : SyncMsgPacket := { rlpData := [11, 12], consIndex := Except.ok 5 }

/-- The packet of shard B: the transaction 13. -/
def packetB : SyncMsgPacket := { rlpData := [13], consIndex := Except.ok 5 }

/-- A packet with a malformed item between two well-formed ones. -/
def packetBad : SyncMsgPacket := { rlpData := [11, 0, 12], consIndex := Except.ok 5 }

/-- A message that is not tree-routed (packet type 0). -/
def plainMsg : P2PMessage := { packetType := 0, length := 40 }

/-- A message of packet type 1. -/
def rpcMsg : P2PMessage := { packetType := 1, length := 40 }

/-- The queue after the shard with a malformed item (from peer 1) and shard B (from
peer 2) were pushed. -/
def queueBadB : DownloadingTxsQueue :=
  (((DownloadingTxsQueue.new none false).push packetBad plainMsg 1 [1, 2]).queue.push packetB
    plainMsg 2 [1, 2]).queue

def startState (treeRouter : Option (List NodeID → Int → List NodeID)) :
    RunState SimplePoolState :=
  { queue := DownloadingTxsQueue.new treeRouter false, pool := emptyPool, drains := [], trace := [] }

end dev.sync

namespace dev.storage

theorem checkStatus_eq (status : Status) (path : String) :
    checkStatus status path =
      if status.ok || status.IsNotFound then Except.ok ()
      else if isFatal status then
        Except.error (Exception.DatabaseError (accessFailedMessage status path false))
      else Except.error (Exception.DatabaseNeedRetry (accessFailedMessage status path true)) := by
  unfold checkStatus accessFailedMessage
  by_cases hp : path = "" <;> by_cases h1 : (status.ok || status.IsNotFound) = true <;>
    by_cases h2 : isFatal status = true <;>
    simp [hp, h1, h2, String.append_assoc]

theorem checkStatus_ok_iff (status : Status) (path : String) :
    checkStatus status path = Except.ok () ↔ (status.ok = true ∨ status.IsNotFound = true) := by
  rw [checkStatus_eq]
  by_cases h1 : (status.ok || status.IsNotFound) = true
  · rw [if_pos h1]
    simpa using h1
  · rw [if_neg h1]
    have h2 : ¬ (status.ok = true ∨ status.IsNotFound = true) := by simpa using h1
    by_cases h3 : isFatal status = true
    · rw [if_pos h3]; simp [h2]
    · rw [if_neg h3]; simp [h2]

end dev.storage

namespace dev.storage

theorem checkStatus_error_cases (status : Status) (path : String) (e : Exception)
    (h : checkStatus status path = Except.error e) :
    (isFatal status = true ∧ e = Exception.DatabaseError (accessFailedMessage status path false)) ∨
      (isFatal status = false ∧
        e = Exception.DatabaseNeedRetry (accessFailedMessage status path true)) := by
  rw [checkStatus_eq] at h
  by_cases h1 : (status.ok || status.IsNotFound) = true
  · rw [if_pos h1] at h; cases h
  · rw [if_neg h1] at h
    by_cases h3 : isFatal status = true
    · rw [if_pos h3] at h
      injection h with h
      exact Or.inl ⟨h3, h.symm⟩
    · rw [if_neg h3] at h
      injection h with h
      exact Or.inr ⟨by simpa using h3, h.symm⟩

theorem isFatal_iff (status : Status) :
    isFatal status = true ↔
      (status.IsIOError = true ∨ status.IsCorruption = true ∨ status.IsNoSpace = true ∨
        status.IsNotSupported = true ∨ status.IsShutdownInProgress = true) := by
  simp only [isFatal, Bool.or_eq_true]
  tauto

theorem checkStatus_passes (status : Status) (path : String)
    (h : checkStatus status path = Except.ok ()) :
    status.ok = true ∨ status.IsNotFound = true :=
  (checkStatus_ok_iff status path).mp h

/-- C10: `checkStatus` returns exactly for the statuses ok and NotFound; otherwise it
throws `DatabaseError` exactly for IOError, Corruption, NoSpace, NotSupported and
ShutdownInProgress, and `DatabaseNeedRetry` for every other status; the comment is
"access rocksDB failed, status: " and the status text, then ", path:" and the path when
the path is not empty, then ", please try again!" in the retry case.  A status that
`Get`, `BatchPut` or `Write` returns is ok or NotFound. -/
theorem checkStatus_classification (status : Status) (path : String) :
    (checkStatus status path = Except.ok () ↔ (status.ok = true ∨ status.IsNotFound = true)) ∧
    (checkStatus status path =
        Except.error (Exception.DatabaseError (accessFailedMessage status path false)) ↔
      (¬ (status.ok = true ∨ status.IsNotFound = true) ∧
        (status.IsIOError = true ∨ status.IsCorruption = true ∨ status.IsNoSpace = true ∨
          status.IsNotSupported = true ∨ status.IsShutdownInProgress = true))) ∧
    (checkStatus status path =
        Except.error (Exception.DatabaseNeedRetry (accessFailedMessage status path true)) ↔
      (¬ (status.ok = true ∨ status.IsNotFound = true) ∧
        ¬ (status.IsIOError = true ∨ status.IsCorruption = true ∨ status.IsNoSpace = true ∨
          status.IsNotSupported = true ∨ status.IsShutdownInProgress = true))) ∧
    (∀ e, checkStatus status path = Except.error e →
      e = Exception.DatabaseError (accessFailedMessage status path false) ∨
        e = Exception.DatabaseNeedRetry (accessFailedMessage status path true)) ∧
    accessFailedMessage status path false =
      "access rocksDB failed, status: " ++ status.ToString ++
        (if path = "" then "" else ", path:" ++ path) ∧
    accessFailedMessage status path true =
      "access rocksDB failed, status: " ++ status.ToString ++
        (if path = "" then "" else ", path:" ++ path) ++ ", please try again!" ∧
    (∀ (self : BasicRocksDB) (key : String) (s : Status) (value : String),
      self.Get key = Except.ok (s, value) → s.ok = true ∨ s.IsNotFound = true) ∧
    (∀ (put : WriteBatch → String → String → Status × WriteBatch) (batch : WriteBatch)
      (key value : String) (s : Status) (batch1 : WriteBatch),
      BasicRocksDB.BatchPut put batch key value = Except.ok (s, batch1) →
        s.ok = true ∨ s.IsNotFound = true) ∧
    (∀ (self : BasicRocksDB) (batch : WriteBatch) (s : Status),
      self.Write batch = Except.ok s → s.ok = true ∨ s.IsNotFound = true) := by
  refine ⟨checkStatus_ok_iff status path, ?_, ?_, ?_, ?_, ?_, ?_, ?_, ?_⟩
  · rw [← isFatal_iff, ← checkStatus_ok_iff status path, checkStatus_eq]
    by_cases h1 : (status.ok || status.IsNotFound) = true
    · simp [h1]
    · by_cases h3 : isFatal status = true
      · simp [h1, h3]
      · simp [h1, h3]
  · rw [← isFatal_iff, ← checkStatus_ok_iff status path, checkStatus_eq]
    by_cases h1 : (status.ok || status.IsNotFound) = true
    · simp [h1]
    · by_cases h3 : isFatal status = true
      · simp [h1, h3]
      · simp [h1, h3]
  · intro e h
    rcases checkStatus_error_cases status path e h with ⟨_, h2⟩ | ⟨_, h2⟩
    · exact Or.inl h2
    · exact Or.inr h2
  · simp [accessFailedMessage]
  · simp [accessFailedMessage, String.append_assoc]
  · intro self key s value h
    unfold BasicRocksDB.Get at h
    cases hdb : self.m_db with
    | none => simp [hdb] at h
    | some db =>
      simp only [hdb] at h
      cases hc : checkStatus (db.Get key).1 "" with
      | error e => simp [hc] at h
      | ok u =>
        have hs : s = (db.Get key).1 := by
          simp only [hc] at h
          cases hd : self.m_decryptHandler with
          | none => simp [hd] at h; rw [h]
          | some f =>
            simp only [hd] at h
            split at h <;> (injection h with h; exact (congrArg Prod.fst h).symm)
        rw [hs]
        exact checkStatus_passes _ _ hc
  · intro put batch key value s batch1 h
    unfold BasicRocksDB.BatchPut at h
    cases hc : checkStatus (put batch key value).1 "" with
    | error e => simp [hc] at h
    | ok u =>
      simp [hc] at h
      have hs : s = (put batch key value).1 := by rw [h]
      rw [hs]
      exact checkStatus_passes _ _ hc
  · intro self batch s h
    unfold BasicRocksDB.Write at h
    cases hdb : self.m_db with
    | none => simp [hdb] at h
    | some db =>
      simp only [hdb] at h
      cases hc : checkStatus (db.Write batch) "" with
      | error e => simp [hc] at h
      | ok u =>
        simp [hc] at h
        rw [← h]
        exact checkStatus_passes _ _ hc

/-- C10, on the IOError status of a held lock file with the path "data": `checkStatus`
throws `DatabaseError` with the status text and the path in its comment. -/
theorem checkStatus_classification_witness :
    checkStatus lockHeldStatus "data" =
      Except.error (Exception.DatabaseError (accessFailedMessage lockHeldStatus "data" false)) :=
  (checkStatus_classification lockHeldStatus "data").2.1.mpr ⟨by decide, Or.inl rfl⟩

/-- C9: when `DB::Open` fails with an IOError status (the lock file is held), `Open`
throws `DatabaseError`, not the documented `OpenDBFailed`; no input makes `Open` throw
`OpenDBFailed`; and when `DB::Open` reports NotFound, `Open` returns the empty handle. -/
theorem Open_failure_is_not_OpenDBFailed :
    BasicRocksDB.Open closedRocksDB (Except.ok ()) failingDbOpen "data" =
      Except.error (Exception.DatabaseError
        "access rocksDB failed, status: IO error: lock hold by current process, path:data") ∧
    (∀ (self : BasicRocksDB) (dbOpen : String → Status × Option DB) (dbname comment : String),
      self.Open (Except.ok ()) dbOpen dbname ≠ Except.error (Exception.OpenDBFailed comment)) ∧
    (∀ (self : BasicRocksDB) (dbOpen : String → Status × Option DB) (dbname : String),
      (dbOpen dbname).1.IsNotFound = true →
        self.Open (Except.ok ()) dbOpen dbname =
          Except.ok ((dbOpen dbname).2, { self with m_db := (dbOpen dbname).2 })) := by
  refine ⟨by rfl, ?_, ?_⟩
  · intro self dbOpen dbname comment h
    unfold BasicRocksDB.Open at h
    simp only at h
    cases hc : checkStatus (dbOpen dbname).1 dbname with
    | ok u => simp [hc] at h
    | error e =>
      simp only [hc] at h
      injection h with h
      rcases checkStatus_error_cases _ _ _ hc with ⟨_, h2⟩ | ⟨_, h2⟩ <;> rw [h2] at h <;> cases h
  · intro self dbOpen dbname h
    have hc : checkStatus (dbOpen dbname).1 dbname = Except.ok () :=
      (checkStatus_ok_iff _ _).mpr (Or.inr h)
    unfold BasicRocksDB.Open
    simp [hc]

end dev.storage

namespace dev.sync

/-! ### `push` -/

theorem sendTargets_append (t1 t2 : List Event) :
    sendTargets (t1 ++ t2) = sendTargets t1 ++ sendTargets t2 := by
  simp [sendTargets, List.filterMap_append]

theorem forwardLoop_spec (statisticHandler : Bool) (msg : P2PMessage) (fromPeer : NodeID)
    (selected : List NodeID) (acc : DownloadTxsShard × List Event) :
    (selected.foldl (forwardStep statisticHandler msg fromPeer) acc).1 =
        { acc.1 with
          forwardNodes := acc.1.forwardNodes ++ selected.filter fun n => n ≠ fromPeer } ∧
      sendTargets (selected.foldl (forwardStep statisticHandler msg fromPeer) acc).2 =
        sendTargets acc.2 ++ selected.filter fun n => n ≠ fromPeer := by
  induction selected generalizing acc with
  | nil => simp
  | cons n rest ih =>
    rw [List.foldl_cons]
    by_cases hn : n = fromPeer
    · have hstep : forwardStep statisticHandler msg fromPeer acc n = acc := by
        simp [forwardStep, hn]
      rw [hstep]
      have hf : (n :: rest).filter (fun n => decide (n ≠ fromPeer)) =
          rest.filter (fun n => decide (n ≠ fromPeer)) := by
        simp [List.filter_cons, hn]
      rw [hf]
      exact ih acc
    · have hf : (n :: rest).filter (fun n => decide (n ≠ fromPeer)) =
          n :: rest.filter (fun n => decide (n ≠ fromPeer)) := by
        simp [List.filter_cons, hn]
      rw [hf]
      obtain ⟨ih1, ih2⟩ := ih (forwardStep statisticHandler msg fromPeer acc n)
      rw [ih1, ih2]
      constructor
      · simp [forwardStep, hn, DownloadTxsShard.appendForwardNodes]
      · cases statisticHandler <;>
          simp [forwardStep, hn, sendTargets, List.filterMap_append]

theorem sendTargets_pushBack (self : DownloadingTxsQueue) (msg : P2PMessage)
    (acc : DownloadTxsShard × List Event) :
    sendTargets (pushBack self msg acc).trace = sendTargets acc.2 := by
  unfold pushBack
  cases self.m_statisticHandler <;> simp [sendTargets, List.filterMap_append]

/-- What `push` does, by cases on the routing condition and the consensus index. -/
theorem push_spec (self : DownloadingTxsQueue) (packet : SyncMsgPacket) (msg : P2PMessage)
    (fromPeer : NodeID) (peersSet : List NodeID) :
    (self.push packet msg fromPeer peersSet).queue.m_buffer =
        self.m_buffer ++
          (pushedShard self.m_treeRouter (Op.push packet msg fromPeer peersSet)).toList ∧
      (self.push packet msg fromPeer peersSet).queue.m_treeRouter = self.m_treeRouter ∧
      (self.push packet msg fromPeer peersSet).queue.m_statisticHandler =
        self.m_statisticHandler ∧
      sendTargets (self.push packet msg fromPeer peersSet).trace =
        ((pushedShard self.m_treeRouter (Op.push packet msg fromPeer peersSet)).toList.map
          fun shard => shard.forwardNodes).flatten := by
  unfold DownloadingTxsQueue.push pushedShard
  cases hr : self.m_treeRouter with
  | none =>
    simp only [ite_self]
    refine ⟨by simp [pushBack], by simp [pushBack, hr], by simp [pushBack], ?_⟩
    rw [sendTargets_pushBack]
    simp [sendTargets]
  | some selectNodes =>
    by_cases hp : msg.packetType = 1
    · simp only [hp, if_true]
      cases hc : packet.consIndex with
      | error e => simp [hr, sendTargets]
      | ok consIndex =>
        have h := forwardLoop_spec self.m_statisticHandler msg fromPeer
          (selectNodes peersSet consIndex)
          ({ txsBytes := packet.rlpData, fromPeer := fromPeer, forwardNodes := [] }, [])
        simp only [sendTargets_pushBack]
        refine ⟨?_, ?_, ?_, ?_⟩
        · simp only [pushBack, h.1]; simp
        · simp [pushBack, hr]
        · simp [pushBack]
        · rw [h.2]; simp [sendTargets]
    · simp only [hp, if_false]
      refine ⟨by simp [pushBack], by simp [pushBack, hr], by simp [pushBack], ?_⟩
      rw [sendTargets_pushBack]
      simp [sendTargets]

theorem pushedShard_excludes_origin (treeRouter : Option (List NodeID → Int → List NodeID))
    (packet : SyncMsgPacket) (msg : P2PMessage) (fromPeer : NodeID) (peersSet : List NodeID)
    (shard : DownloadTxsShard)
    (h : pushedShard treeRouter (Op.push packet msg fromPeer peersSet) = some shard) :
    fromPeer ∉ shard.forwardNodes := by
  simp only [pushedShard] at h
  split at h
  · injection h with h; rw [← h]; simp
  · split at h
    · split at h
      · cases h
      · injection h with h; rw [← h]; simp [List.mem_filter]
    · injection h with h; rw [← h]; simp

/-- C2: for a tree-routed message (packet type 1, a router configured) whose consensus
index is read, the targets of `asyncSendMessageByNodeID` and the `forwardNodes` of the
appended shard are both the `selectNodes` result without the entries equal to
`_fromPeer`, in the same order; for any other message nothing is sent and `forwardNodes`
is empty; in every case the origin peer is neither a send target nor a forward node of
an appended shard. -/
theorem push_forwarding_exclusion (self : DownloadingTxsQueue) (packet : SyncMsgPacket)
    (msg : P2PMessage) (fromPeer : NodeID) (peersSet : List NodeID) :
    (∀ (selectNodes : List NodeID → Int → List NodeID) (consIndex : Int),
      msg.packetType = 1 → self.m_treeRouter = some selectNodes →
      packet.consIndex = Except.ok consIndex →
        sendTargets (self.push packet msg fromPeer peersSet).trace =
            (selectNodes peersSet consIndex).filter (fun n => n ≠ fromPeer) ∧
          (self.push packet msg fromPeer peersSet).queue.m_buffer =
            self.m_buffer ++
              [{ txsBytes := packet.rlpData, fromPeer := fromPeer,
                 forwardNodes := (selectNodes peersSet consIndex).filter
                   (fun n => n ≠ fromPeer) }]) ∧
    (¬ (msg.packetType = 1 ∧ self.m_treeRouter.isSome = true) →
        sendTargets (self.push packet msg fromPeer peersSet).trace = [] ∧
          (self.push packet msg fromPeer peersSet).queue.m_buffer =
            self.m_buffer ++
              [{ txsBytes := packet.rlpData, fromPeer := fromPeer, forwardNodes := [] }]) ∧
    fromPeer ∉ sendTargets (self.push packet msg fromPeer peersSet).trace ∧
    (∃ appended : List DownloadTxsShard,
      (self.push packet msg fromPeer peersSet).queue.m_buffer = self.m_buffer ++ appended ∧
        ∀ shard ∈ appended, fromPeer ∉ shard.forwardNodes) := by
  obtain ⟨hb, _, _, ht⟩ := push_spec self packet msg fromPeer peersSet
  refine ⟨?_, ?_, ?_, ?_⟩
  · intro selectNodes consIndex hp hr hc
    rw [hb, ht]
    simp [pushedShard, hr, hp, hc]
  · intro hn
    rw [hb, ht]
    cases hr : self.m_treeRouter with
    | none => simp [pushedShard]
    | some selectNodes =>
      have hp : ¬ msg.packetType = 1 := fun hp => hn ⟨hp, by simp [hr]⟩
      simp [pushedShard, hp]
  · rw [ht]
    cases hs : pushedShard self.m_treeRouter (Op.push packet msg fromPeer peersSet) with
    | none => simp
    | some shard => simpa using pushedShard_excludes_origin _ _ _ _ _ _ hs
  · refine ⟨_, hb, ?_⟩
    intro shard hs
    exact pushedShard_excludes_origin _ _ _ _ _ _ (by simpa using hs)

/-- C2, at peers {1,2,3,4}, consensus index 5 and origin peer 1: the message goes to
2, 3 and 4, which are the forward nodes of the shard. -/
theorem push_forwarding_exclusion_witness :
    sendTargets ((DownloadingTxsQueue.new (some allPeers) true).push packetA rpcMsg 1
        [1, 2, 3, 4]).trace = [2, 3, 4] ∧
      ((DownloadingTxsQueue.new (some allPeers) true).push packetA rpcMsg 1
        [1, 2, 3, 4]).queue.m_buffer =
        [{ txsBytes := [11, 12], fromPeer := 1, forwardNodes := [2, 3, 4] }] :=
  (push_forwarding_exclusion (DownloadingTxsQueue.new (some allPeers) true) packetA rpcMsg 1
    [1, 2, 3, 4]).1 allPeers 5 rfl rfl rfl

/-! ### `pop2TxPool`: the buffer -/

theorem pop2TxPool_buffer {σ : Type} (self : DownloadingTxsQueue) (txPool : TxPoolInterface σ)
    (decoder : Decoder) (scheduler : Nat → List (Nat × Nat)) (pool : σ)
    (checkSig : CheckTransaction) :
    (self.pop2TxPool txPool decoder scheduler pool checkSig).localBuffer = self.m_buffer ∧
      (self.pop2TxPool txPool decoder scheduler pool checkSig).queue.m_buffer = [] ∧
      (self.pop2TxPool txPool decoder scheduler pool checkSig).queue.m_treeRouter =
        self.m_treeRouter ∧
      (self.pop2TxPool txPool decoder scheduler pool checkSig).queue.m_statisticHandler =
        self.m_statisticHandler := by
  unfold DownloadingTxsQueue.pop2TxPool
  by_cases h : self.m_buffer.length = 0
  · have hnil : self.m_buffer = [] := List.length_eq_zero.mp h
    simp [hnil]
  · simp [h]

/-- C8: with an empty `m_buffer`, `pop2TxPool` returns the queue and the pool as they
were and makes no call at all; with a non-empty `m_buffer` it captures exactly the
buffer's contents and leaves a fresh empty buffer in the queue. -/
theorem pop2TxPool_empty_is_noop {σ : Type} (self : DownloadingTxsQueue)
    (txPool : TxPoolInterface σ) (decoder : Decoder) (scheduler : Nat → List (Nat × Nat))
    (pool : σ) (checkSig : CheckTransaction) :
    (self.m_buffer = [] →
      (self.pop2TxPool txPool decoder scheduler pool checkSig).queue = self ∧
        (self.pop2TxPool txPool decoder scheduler pool checkSig).pool = pool ∧
        (self.pop2TxPool txPool decoder scheduler pool checkSig).trace = [] ∧
        (self.pop2TxPool txPool decoder scheduler pool checkSig).localBuffer = [] ∧
        (self.pop2TxPool txPool decoder scheduler pool checkSig).thrown = none) ∧
    (self.m_buffer ≠ [] →
      (self.pop2TxPool txPool decoder scheduler pool checkSig).localBuffer = self.m_buffer ∧
        (self.pop2TxPool txPool decoder scheduler pool checkSig).queue =
          { self with m_buffer := [] }) := by
  constructor
  · intro h
    simp [DownloadingTxsQueue.pop2TxPool, h]
  · intro h
    have hl : ¬ self.m_buffer.length = 0 := fun hl => h (List.length_eq_zero.mp hl)
    simp [DownloadingTxsQueue.pop2TxPool, hl]

/-- C8, on the queue as constructed (no call is made) and on a queue holding shard A
(the shard is captured and the buffer is empty afterwards). -/
theorem pop2TxPool_empty_is_noop_witness :
    ((DownloadingTxsQueue.new none true).pop2TxPool (simplePool 10) legacyDecoder oneBlock
        emptyPool CheckTransaction.Everything).trace = [] ∧
      (((DownloadingTxsQueue.new none true).push packetA plainMsg 1 []).queue.pop2TxPool
        (simplePool 10) legacyDecoder oneBlock emptyPool CheckTransaction.Everything).localBuffer =
        [{ txsBytes := [11, 12], fromPeer := 1, forwardNodes := [] }] :=
  ⟨((pop2TxPool_empty_is_noop (DownloadingTxsQueue.new none true) (simplePool 10) legacyDecoder
      oneBlock emptyPool CheckTransaction.Everything).1 rfl).2.2.1,
    ((pop2TxPool_empty_is_noop ((DownloadingTxsQueue.new none true).push packetA plainMsg 1
      []).queue (simplePool 10) legacyDecoder oneBlock emptyPool CheckTransaction.Everything).2
      (by decide)).1⟩

/-! ### Sequences of `push` and `pop2TxPool` -/

theorem runOps_invariant {σ : Type} (txPool : TxPoolInterface σ) (decoder : Decoder)
    (scheduler : Nat → List (Nat × Nat)) (ops : List Op) (st : RunState σ) :
    (runOps txPool decoder scheduler st ops).drains.flatten ++
        (runOps txPool decoder scheduler st ops).queue.m_buffer =
      st.drains.flatten ++ st.queue.m_buffer ++
        ops.filterMap (pushedShard st.queue.m_treeRouter) := by
  induction ops generalizing st with
  | nil => simp [runOps]
  | cons op rest ih =>
    have hstep : runOps txPool decoder scheduler st (op :: rest) =
        runOps txPool decoder scheduler (runOp txPool decoder scheduler st op) rest := rfl
    rw [hstep, ih]
    cases op with
    | push packet msg fromPeer peersSet =>
      obtain ⟨hb, hr, _, _⟩ := push_spec st.queue packet msg fromPeer peersSet
      simp only [runOp, hb, hr, List.filterMap_cons]
      cases pushedShard st.queue.m_treeRouter (Op.push packet msg fromPeer peersSet) <;> simp
    | pop2TxPool checkSig =>
      obtain ⟨hl, hb, hr, _⟩ :=
        pop2TxPool_buffer st.queue txPool decoder scheduler st.pool checkSig
      simp [runOp, hl, hb, hr, pushedShard]

/-- C1: for every sequence of `push` and `pop2TxPool` calls on a queue that starts
empty, the shards captured by the successive drains, followed by the shards left in
`m_buffer`, are the pushed shards in push order; and a drain leaves nothing behind:
after one more `pop2TxPool` the drains alone are the pushed shards and `m_buffer` is
empty. -/
theorem drains_partition_pushes {σ : Type} (txPool : TxPoolInterface σ) (decoder : Decoder)
    (scheduler : Nat → List (Nat × Nat)) (pool : σ)
    (treeRouter : Option (List NodeID → Int → List NodeID)) (statisticHandler : Bool)
    (ops : List Op) (checkSig : CheckTransaction) :
    (runOps txPool decoder scheduler
        { queue := DownloadingTxsQueue.new treeRouter statisticHandler, pool := pool,
          drains := [], trace := [] } ops).drains.flatten ++
      (runOps txPool decoder scheduler
        { queue := DownloadingTxsQueue.new treeRouter statisticHandler, pool := pool,
          drains := [], trace := [] } ops).queue.m_buffer =
        ops.filterMap (pushedShard treeRouter) ∧
    (runOps txPool decoder scheduler
        { queue := DownloadingTxsQueue.new treeRouter statisticHandler, pool := pool,
          drains := [], trace := [] } (ops ++ [Op.pop2TxPool checkSig])).drains.flatten =
        ops.filterMap (pushedShard treeRouter) ∧
    (runOps txPool decoder scheduler
        { queue := DownloadingTxsQueue.new treeRouter statisticHandler, pool := pool,
          drains := [], trace := [] } (ops ++ [Op.pop2TxPool checkSig])).queue.m_buffer = [] := by
  have h1 := runOps_invariant txPool decoder scheduler ops
    { queue := DownloadingTxsQueue.new treeRouter statisticHandler, pool := pool,
      drains := [], trace := [] }
  simp only [DownloadingTxsQueue.new, List.flatten_nil, List.nil_append] at h1
  simp only [DownloadingTxsQueue.new]
  refine ⟨h1, ?_, ?_⟩
  · rw [← h1]
    simp only [runOps, List.foldl_append, List.foldl_cons, List.foldl_nil, runOp]
    rw [(pop2TxPool_buffer _ txPool decoder scheduler _ checkSig).1]
    simp
  · simp only [runOps, List.foldl_append, List.foldl_cons, List.foldl_nil, runOp]
    exact (pop2TxPool_buffer _ txPool decoder scheduler _ checkSig).2.1

/-! ### `pop2TxPool`: the verification phase -/

theorem runUntilThrow_silent {α β : Type} (P : List Event → List β) (hnil : P [] = [])
    (happ : ∀ t1 t2, P (t1 ++ t2) = P t1 ++ P t2) (step : α → List Event × Option String)
    (h : ∀ a, P (step a).1 = []) (l : List α) : P (runUntilThrow step l).1 = [] := by
  induction l with
  | nil => simpa [runUntilThrow] using hnil
  | cons a rest ih =>
    cases hs : (step a).2 with
    | some e => simp only [runUntilThrow, hs, h a]
    | none => simp only [runUntilThrow, hs, happ, h a, ih, List.append_nil]

theorem knownByCalls_append (t1 t2 : List Event) :
    knownByCalls (t1 ++ t2) = knownByCalls t1 ++ knownByCalls t2 := by
  simp [knownByCalls, List.filterMap_append]

theorem importStep_spec {σ : Type} (txPool : TxPoolInterface σ) (st : ImportState σ)
    (tx : Transaction) :
    (importStep txPool st tx).pool = (txPool.importTx st.pool tx).2 ∧
      (importStep txPool st tx).knownTxHash ++
          returnedHashes txPool (txPool.importTx st.pool tx).2 [] =
        st.knownTxHash ++ returnedHashes txPool st.pool [tx] ∧
      importCalls (importStep txPool st tx).trace = importCalls st.trace ++ [tx] := by
  unfold importStep
  cases h : (txPool.importTx st.pool tx).1 with
  | error e => simp [importCalls, List.filterMap_append, returnedHashes, h]
  | ok importResult => simp [importCalls, List.filterMap_append, returnedHashes, h]

theorem returnedHashes_cons {σ : Type} (txPool : TxPoolInterface σ) (pool : σ)
    (tx : Transaction) (rest : List Transaction) :
    returnedHashes txPool pool (tx :: rest) =
      returnedHashes txPool pool [tx] ++ returnedHashes txPool (txPool.importTx pool tx).2 rest := by
  simp only [returnedHashes]
  cases (txPool.importTx pool tx).1 <;> simp

theorem importStep_fold {σ : Type} (txPool : TxPoolInterface σ) (txs : List Transaction)
    (st : ImportState σ) :
    (txs.foldl (importStep txPool) st).knownTxHash =
        st.knownTxHash ++ returnedHashes txPool st.pool txs ∧
      importCalls (txs.foldl (importStep txPool) st).trace = importCalls st.trace ++ txs := by
  induction txs generalizing st with
  | nil => simp [returnedHashes]
  | cons tx rest ih =>
    rw [List.foldl_cons]
    obtain ⟨ih1, ih2⟩ := ih (importStep txPool st tx)
    obtain ⟨hp, hk, hc⟩ := importStep_spec txPool st tx
    rw [ih1, ih2, hp, hc, returnedHashes_cons, ← List.append_assoc, ← hk]
    simp [returnedHashes]

theorem markKnown_fold {σ : Type} (txPool : TxPoolInterface σ) (knownTxHash : List h256)
    (forwardNodes : List NodeID) (start : σ × List Event) :
    forwardNodes.foldl
        (fun acc forwardedNode =>
          (txPool.setTransactionsAreKnownBy acc.1 knownTxHash forwardedNode,
            acc.2 ++ [Event.setTransactionsAreKnownBy knownTxHash forwardedNode]))
        start =
      (forwardNodes.foldl
          (fun pool forwardedNode =>
            txPool.setTransactionsAreKnownBy pool knownTxHash forwardedNode) start.1,
        start.2 ++ forwardNodes.map fun n => Event.setTransactionsAreKnownBy knownTxHash n) := by
  induction forwardNodes generalizing start with
  | nil => simp
  | cons n rest ih => rw [List.foldl_cons, ih]; simp

theorem markKnown_spec {σ : Type} (txPool : TxPoolInterface σ) (pool : σ)
    (knownTxHash : List h256) (fromPeer : NodeID) (forwardNodes : List NodeID) :
    markKnown txPool pool knownTxHash fromPeer forwardNodes =
      (forwardNodes.foldl
          (fun pool forwardedNode =>
            txPool.setTransactionsAreKnownBy pool knownTxHash forwardedNode)
          (if knownTxHash = [] then pool
            else txPool.setTransactionsAreKnownBy pool knownTxHash fromPeer),
        (if knownTxHash = [] then []
          else [Event.setTransactionsAreKnownBy knownTxHash fromPeer]) ++
          forwardNodes.map fun n => Event.setTransactionsAreKnownBy knownTxHash n) := by
  unfold markKnown
  rw [markKnown_fold]
  cases knownTxHash with
  | nil => simp
  | cons a l => simp

/-- C4 as stated fails: a full pool rejects transaction 11 (`ImportResult` 9, neither
`Success` nor `AlreadyKnown`), and its hash is in `knownTxHash` all the same. -/
theorem knownTxHash_holds_rejected_hash :
    ((simplePool 0).importTx emptyPool tx1).1 = Except.ok (ImportResult.Other 9) ∧
      (importLoop (simplePool 0) emptyPool 0 [tx1]).knownTxHash = [tx1.sha3] ∧
      successOrKnownHashes (simplePool 0) emptyPool [tx1] = [] ∧
      (importLoop (simplePool 0) emptyPool 0 [tx1]).knownTxHash ≠
        successOrKnownHashes (simplePool 0) emptyPool [tx1] :=
  ⟨rfl, by decide, by decide, by decide⟩

/-- C4, amended: the `knownTxHash` list built by the import loop holds, in batch order,
exactly the hashes of the transactions whose `import` returned a result (`Success`,
`AlreadyKnown` or any other `ImportResult`); the hash of a transaction whose `import`
threw is not added. -/
theorem knownTxHash_is_returned_hashes {σ : Type} (txPool : TxPoolInterface σ) (pool : σ)
    (successCnt : Nat) (txs : List Transaction) :
    (importLoop txPool pool successCnt txs).knownTxHash = returnedHashes txPool pool txs := by
  unfold importLoop
  rw [(importStep_fold txPool txs _).1]
  simp

/-! ### `pop2TxPool`: one shard, and the whole drain -/

theorem knownByCalls_verifyAt {σ : Type} (txPool : TxPoolInterface σ) (pool : σ)
    (txs : List Transaction) (j : Nat) : knownByCalls (verifyAt txPool pool txs j).1 = [] := by
  unfold verifyAt
  cases txs.get? j with
  | none => simp [knownByCalls]
  | some tx => cases h : txPool.txExists pool tx.sha3 <;> simp [knownByCalls, h]

theorem knownByCalls_verify {σ : Type} (txPool : TxPoolInterface σ) (pool : σ)
    (txs : List Transaction) (blocks : List (Nat × Nat)) :
    knownByCalls (verify txPool pool txs blocks).1 = [] :=
  runUntilThrow_silent knownByCalls rfl knownByCalls_append _
    (fun _ => runUntilThrow_silent knownByCalls rfl knownByCalls_append _
      (knownByCalls_verifyAt txPool pool txs) _) _

theorem knownByCalls_importStep_fold {σ : Type} (txPool : TxPoolInterface σ)
    (txs : List Transaction) (st : ImportState σ) :
    knownByCalls (txs.foldl (importStep txPool) st).trace = knownByCalls st.trace := by
  induction txs generalizing st with
  | nil => simp
  | cons tx rest ih =>
    rw [List.foldl_cons, ih]
    unfold importStep
    cases h : (txPool.importTx st.pool tx).1 <;> simp [knownByCalls, List.filterMap_append, h]

theorem knownByCalls_marks (knownTxHash : List h256) (fromPeer : NodeID)
    (forwardNodes : List NodeID) :
    knownByCalls
        ((if knownTxHash = [] then []
          else [Event.setTransactionsAreKnownBy knownTxHash fromPeer]) ++
          forwardNodes.map fun n => Event.setTransactionsAreKnownBy knownTxHash n) =
      (if knownTxHash = [] then [] else [(knownTxHash, fromPeer)]) ++
        forwardNodes.map fun n => (knownTxHash, n) := by
  rw [knownByCalls_append]
  congr 1
  · by_cases h : knownTxHash = [] <;> simp [h, knownByCalls]
  · induction forwardNodes with
    | nil => simp [knownByCalls]
    | cons n rest ih =>
      simp only [knownByCalls] at ih
      simp [knownByCalls, ih]

/-- What one iteration does when the verification phase throws, and when it returns. -/
theorem processDecoded_spec {σ : Type} (txPool : TxPoolInterface σ) (statisticHandler : Bool)
    (scheduler : Nat → List (Nat × Nat)) (st : DrainState σ) (txsShard : DownloadTxsShard)
    (txs : List Transaction) :
    (∀ e, (verify txPool st.pool txs (scheduler txs.length)).2 = some e →
      processDecoded txPool statisticHandler scheduler st txsShard txs =
        { st with
          trace := st.trace ++ (verify txPool st.pool txs (scheduler txs.length)).1
          thrown := some e }) ∧
    ((verify txPool st.pool txs (scheduler txs.length)).2 = none →
      processDecoded txPool statisticHandler scheduler st txsShard txs =
        { pool :=
            txsShard.forwardNodes.foldl
              (fun pool n =>
                txPool.setTransactionsAreKnownBy pool
                  (importLoop txPool st.pool st.successCnt txs).knownTxHash n)
              (if (importLoop txPool st.pool st.successCnt txs).knownTxHash = [] then
                  (importLoop txPool st.pool st.successCnt txs).pool
                else txPool.setTransactionsAreKnownBy
                  (importLoop txPool st.pool st.successCnt txs).pool
                  (importLoop txPool st.pool st.successCnt txs).knownTxHash txsShard.fromPeer)
          successCnt := (importLoop txPool st.pool st.successCnt txs).successCnt
          trace :=
            st.trace ++ (verify txPool st.pool txs (scheduler txs.length)).1 ++
              (importLoop txPool st.pool st.successCnt txs).trace ++
              ((if (importLoop txPool st.pool st.successCnt txs).knownTxHash = [] then []
                else [Event.setTransactionsAreKnownBy
                  (importLoop txPool st.pool st.successCnt txs).knownTxHash
                  txsShard.fromPeer]) ++
                txsShard.forwardNodes.map fun n =>
                  Event.setTransactionsAreKnownBy
                    (importLoop txPool st.pool st.successCnt txs).knownTxHash n) ++
              (if statisticHandler then [Event.updateDownloadedTxsCount txs.length] else [])
          thrown := none }) := by
  constructor
  · intro e he
    simp only [processDecoded, he]
  · intro hn
    simp only [processDecoded, hn, markKnown_spec]

/-- C5: when the verification phase of a shard returns, the calls made for the shard
are, in this order, those of the verification phase, those of the import loop,
`setTransactionsAreKnownBy(knownTxHash, fromPeer)` when `knownTxHash` is not empty,
`setTransactionsAreKnownBy(knownTxHash, node)` for each node of `forwardNodes` in order,
and the statistics update; every known-by call carries the whole `knownTxHash`, and the
pool ends in the state these calls produce; when the verification phase throws, the loop
of imports is not reached and no known-by call is made.  Draining shard A (11 and 12,
from peer 1) and shard B (13, from peer 2) makes three imports and marks 11, 12 known
by peer 1 and 13 known by peer 2. -/
theorem known_by_marking {σ : Type} (txPool : TxPoolInterface σ) (statisticHandler : Bool)
    (scheduler : Nat → List (Nat × Nat)) (st : DrainState σ) (txsShard : DownloadTxsShard)
    (txs : List Transaction) :
    (processDecoded txPool statisticHandler scheduler st txsShard txs).trace =
        st.trace ++ (verify txPool st.pool txs (scheduler txs.length)).1 ++
          (if (verify txPool st.pool txs (scheduler txs.length)).2 = none then
            (importLoop txPool st.pool st.successCnt txs).trace ++
            ((if (importLoop txPool st.pool st.successCnt txs).knownTxHash = [] then []
              else [Event.setTransactionsAreKnownBy
                (importLoop txPool st.pool st.successCnt txs).knownTxHash txsShard.fromPeer]) ++
              txsShard.forwardNodes.map fun n =>
                Event.setTransactionsAreKnownBy
                  (importLoop txPool st.pool st.successCnt txs).knownTxHash n) ++
            (if statisticHandler then [Event.updateDownloadedTxsCount txs.length] else [])
          else []) ∧
    knownByCalls (processDecoded txPool statisticHandler scheduler st txsShard txs).trace =
        knownByCalls st.trace ++
          (if (verify txPool st.pool txs (scheduler txs.length)).2 = none then
            (if (importLoop txPool st.pool st.successCnt txs).knownTxHash = [] then []
              else [((importLoop txPool st.pool st.successCnt txs).knownTxHash,
                txsShard.fromPeer)]) ++
              txsShard.forwardNodes.map fun n =>
                ((importLoop txPool st.pool st.successCnt txs).knownTxHash, n)
          else []) ∧
    (processDecoded txPool statisticHandler scheduler st txsShard txs).pool =
        (if (verify txPool st.pool txs (scheduler txs.length)).2 = none then
          txsShard.forwardNodes.foldl
            (fun pool n =>
              txPool.setTransactionsAreKnownBy pool
                (importLoop txPool st.pool st.successCnt txs).knownTxHash n)
            (if (importLoop txPool st.pool st.successCnt txs).knownTxHash = [] then
                (importLoop txPool st.pool st.successCnt txs).pool
              else txPool.setTransactionsAreKnownBy
                (importLoop txPool st.pool st.successCnt txs).pool
                (importLoop txPool st.pool st.successCnt txs).knownTxHash txsShard.fromPeer)
        else st.pool) ∧
    importCalls (runOps (simplePool 10) legacyDecoder oneBlock (startState none)
        [Op.push packetA plainMsg 1 [1, 2], Op.push packetB plainMsg 2 [1, 2],
          Op.pop2TxPool CheckTransaction.Everything]).trace = [tx1, tx2, tx3] ∧
    knownByCalls (runOps (simplePool 10) legacyDecoder oneBlock (startState none)
        [Op.push packetA plainMsg 1 [1, 2], Op.push packetB plainMsg 2 [1, 2],
          Op.pop2TxPool CheckTransaction.Everything]).trace = [([11, 12], 1), ([13], 2)] ∧
    (runOps (simplePool 10) legacyDecoder oneBlock (startState none)
        [Op.push packetA plainMsg 1 [1, 2], Op.push packetB plainMsg 2 [1, 2],
          Op.pop2TxPool CheckTransaction.Everything]).pool =
      { txs := [11, 12, 13], knownBy := [(1, [11, 12]), (2, [13])] } := by
  obtain ⟨hthrow, hret⟩ :=
    processDecoded_spec txPool statisticHandler scheduler st txsShard txs
  refine ⟨?_, ?_, ?_, by decide, by decide, by decide⟩
  · cases hv : (verify txPool st.pool txs (scheduler txs.length)).2 with
    | some e => rw [hthrow e hv]; simp
    | none => rw [hret hv]; simp
  · cases hv : (verify txPool st.pool txs (scheduler txs.length)).2 with
    | some e =>
      rw [hthrow e hv]
      simp [knownByCalls_append, knownByCalls_verify]
    | none =>
      rw [hret hv]
      have h1 : knownByCalls (importLoop txPool st.pool st.successCnt txs).trace = [] := by
        unfold importLoop
        rw [knownByCalls_importStep_fold]
        rfl
      have h2 : knownByCalls
          (if statisticHandler then [Event.updateDownloadedTxsCount txs.length] else []) =
          [] := by
        cases statisticHandler <;> rfl
      simp only [knownByCalls_append, knownByCalls_verify, h1, h2, List.append_nil, if_true]
      rw [← knownByCalls_append]
      exact congrArg _ (knownByCalls_marks _ _ _)
  · cases hv : (verify txPool st.pool txs (scheduler txs.length)).2 with
    | some e => rw [hthrow e hv]; simp
    | none => rw [hret hv]; simp

/-! ### The order of the imports -/

theorem decodeItems_throws (txDecode : bytes → Except String Transaction) (items : List bytes)
    (item : bytes) (e : String) (hmem : item ∈ items) (hbad : txDecode item = Except.error e) :
    ∃ e2, decodeItems txDecode items = Except.error e2 := by
  induction items with
  | nil => cases hmem
  | cons first rest ih =>
    unfold decodeItems
    cases hfirst : txDecode first with
    | error e1 => exact ⟨e1, rfl⟩
    | ok tx =>
      have hrest : item ∈ rest := by
        rcases List.mem_cons.mp hmem with h | h
        · rw [h, hfirst] at hbad; cases hbad
        · exact h
      obtain ⟨e2, he2⟩ := ih hrest
      exact ⟨e2, by simp [he2]⟩

theorem pop2TxPool_decode_throws {σ : Type} (self : DownloadingTxsQueue)
    (txPool : TxPoolInterface σ) (decoder : Decoder) (scheduler : Nat → List (Nat × Nat))
    (pool : σ) (checkSig : CheckTransaction) (shard : DownloadTxsShard)
    (rest : List DownloadTxsShard) (e : String) (hbuf : self.m_buffer = shard :: rest)
    (hbad : decodeShard decoder checkSig shard = Except.error e) :
    (self.pop2TxPool txPool decoder scheduler pool checkSig).trace = [] ∧
      (self.pop2TxPool txPool decoder scheduler pool checkSig).thrown = some e ∧
      (self.pop2TxPool txPool decoder scheduler pool checkSig).queue.m_buffer = [] := by
  simp [DownloadingTxsQueue.pop2TxPool, hbuf, processBuffer, hbad]

/-- C3: on the pre-RC2 path, draining a shard that holds the well-formed transactions
11 and 12 around a malformed item, followed by shard B, leaves `pop2TxPool` by the
exception of `Transaction::decode`: no transaction is handed to the pool, neither 11
and 12 nor the 13 of shard B, the pool is unchanged, and both shards have left the buffer. -/
theorem malformed_item_aborts_drain :
    (queueBadB.pop2TxPool (simplePool 10) legacyDecoder oneBlock emptyPool
        CheckTransaction.Everything).thrown = some "bad rlp" ∧
      importCalls (queueBadB.pop2TxPool (simplePool 10) legacyDecoder oneBlock emptyPool
        CheckTransaction.Everything).trace = [] ∧
      (queueBadB.pop2TxPool (simplePool 10) legacyDecoder oneBlock emptyPool
        CheckTransaction.Everything).pool = emptyPool ∧
      (queueBadB.pop2TxPool (simplePool 10) legacyDecoder oneBlock emptyPool
        CheckTransaction.Everything).localBuffer =
        [{ txsBytes := [11, 0, 12], fromPeer := 1, forwardNodes := [] },
          { txsBytes := [13], fromPeer := 2, forwardNodes := [] }] ∧
      (queueBadB.pop2TxPool (simplePool 10) legacyDecoder oneBlock emptyPool
        CheckTransaction.Everything).queue.m_buffer = [] ∧
      legacyDecoder.txDecode [11] = Except.ok tx1 ∧
      legacyDecoder.txDecode [12] = Except.ok tx2 ∧
      legacyDecoder.txDecode [0] = Except.error "bad rlp" := by
  refine ⟨by decide, by decide, by decide, by decide, by decide, rfl, rfl, rfl⟩

end dev.sync
